import Mathlib

/-!
# RuntimeState (be/src/runtime/runtime_state.h)

A shallow embedding of the per-fragment-instance execution context
`palo::RuntimeState` and of the properties stated about it.

Every method that takes a lock (`_process_status_lock`, `_error_log_lock`) or
performs one atomic operation is one atomic step of the model, so an execution
by several threads is a sequence of such steps.
-/

namespace palo

/-! ## Machine integers -/

/-- The value of a mathematical integer stored in a two's complement `int`
(32 bits). -/
def wrapInt32 (x : Int) : Int := (x + 2 ^ 31) % 2 ^ 32 - 2 ^ 31

/-- The value of a mathematical integer stored in an `int64_t`. -/
def wrapInt64 (x : Int) : Int := (x + 2 ^ 63) % 2 ^ 64 - 2 ^ 63

/-- Conversion of a signed value to `uint32_t`. -/
def toUInt32 (x : Int) : Nat := (x % 2 ^ 32).toNat

/-- Conversion of a signed value to `size_t` (unsigned, 64 bits). -/
def toSizeT (x : Int) : Nat := (x % 2 ^ 64).toNat

/-- The range of `int` / `int32_t` / `PlanNodeId`. -/
def isInt32 (x : Int) : Prop := -2 ^ 31 ≤ x ∧ x < 2 ^ 31

/-- The range of `int64_t`. -/
def isInt64 (x : Int) : Prop := -2 ^ 63 ≤ x ∧ x < 2 ^ 63

instance (x : Int) : Decidable (isInt32 x) := by unfold isInt32; infer_instance
instance (x : Int) : Decidable (isInt64 x) := by unfold isInt64; infer_instance

/-! ## Status -/

/-- Modelled from the spec: the status codes of `TStatusCode`
(gen_cpp/Status_types.h, not among the sources), after the error taxonomy of
the specification: ok, Cancelled, MemoryLimitExceeded, and the generic failure
that a status built from a message carries. -/
inductive TStatusCode where
  | OK
  | CANCELLED
  | MEM_LIMIT_EXCEEDED
  | INTERNAL_ERROR
  deriving DecidableEq, Repr

/-- Modelled from the spec: class `Status` (common/status.h, not among the
sources): an ok/error flag, here the code, and an error message. -/
structure Status where
  code : TStatusCode
  error_msg : String
  deriving DecidableEq, Repr

namespace Status

/-- The default-constructed status `Status()`, which is ok. -/
def OK : Status := ⟨TStatusCode.OK, ""⟩

/-- The constructor `Status(const std::string& error_msg)`: a generic failure
carrying the message. -/
def ofMsg (error_msg : String) : Status := ⟨TStatusCode.INTERNAL_ERROR, error_msg⟩

/-- The constructor `Status(TStatusCode::type code)`. -/
def ofCode (code : TStatusCode) : Status := ⟨code, ""⟩

/-- The method `Status::ok()`. -/
def ok (st : Status) : Bool := st.code == TStatusCode.OK

end Status

/-! ## The state -/

/-- The members of `RuntimeState` that the modelled methods read or write.
`max_errors` is `_query_options.max_errors`; `_desc_tbl` is the address held
by the `DescriptorTbl*` member (`none` for a null pointer). -/
structure RuntimeState where
  _desc_tbl : Option Nat
  max_errors : Int
  _error_log : List String
  _unreported_error_idx : Nat
  _is_cancelled : Bool
  _per_fragment_instance_idx : Int
  _be_number : Int
  _process_status : Status
  _root_node_id : Int
  _num_rows_load_success : Int
  _num_rows_load_filtered : Int
  deriving DecidableEq, Repr

/-- Modelled from the spec: the state a constructor leaves (the constructors
are declared in the header and defined elsewhere): the status cell "created
empty", an empty error log with the cursor at 0, not cancelled, counters at
zero, and the root plan-node id unset, which is -1, the value that
`set_fragment_root_id` checks for. -/
def RuntimeState.fresh (max_errors : Int) : RuntimeState :=
  { _desc_tbl := none
    max_errors := max_errors
    _error_log := []
    _unreported_error_idx := 0
    _is_cancelled := false
    _per_fragment_instance_idx := 0
    _be_number := 0
    _process_status := Status.OK
    _root_node_id := -1
    _num_rows_load_success := 0
    _num_rows_load_filtered := 0 }

/-! ## Status cell -/

/-- `Status query_status()`: the stored process status, read under the lock. -/
def query_status (s : RuntimeState) : Status := s._process_status

/-- `void set_process_status(const std::string& err_msg)`. -/
def set_process_status_str (err_msg : String) (s : RuntimeState) : RuntimeState :=
  if !s._process_status.ok then s
  else { s with _process_status := Status.ofMsg err_msg }

/-- `void set_process_status(const Status& status)`. -/
def set_process_status (status : Status) (s : RuntimeState) : RuntimeState :=
  if status.ok then s
  else if !s._process_status.ok then s
  else { s with _process_status := status }

/-- One call of `set_process_status`, by either overload. -/
inductive StatusWrite where
  | str (err_msg : String)
  | status (status : Status)
  deriving DecidableEq, Repr

/-- The status a call asks to store: `Status(err_msg)` for the string
overload, the argument for the other. -/
def StatusWrite.written : StatusWrite → Status
  | .str err_msg => Status.ofMsg err_msg
  | .status st => st

/-- Runs one call. -/
def StatusWrite.apply : StatusWrite → RuntimeState → RuntimeState
  | .str err_msg, s => set_process_status_str err_msg s
  | .status st, s => set_process_status st s

/-- Runs a sequence of calls, first to last. -/
def runStatusWrites (ws : List StatusWrite) (s : RuntimeState) : RuntimeState :=
  ws.foldl (fun st w => w.apply st) s

/-- The first non-ok status among those a sequence of calls asks to store. -/
def firstError (ws : List StatusWrite) : Option Status :=
  (ws.map StatusWrite.written).find? (fun st => !st.ok)

/-! ## Cancellation -/

/-- `bool is_cancelled() const`. -/
def is_cancelled (s : RuntimeState) : Bool := s._is_cancelled

/-- `void set_is_cancelled(bool v)`. -/
def set_is_cancelled (v : Bool) (s : RuntimeState) : RuntimeState :=
  { s with _is_cancelled := v }

/-- The macro `RETURN_IF_CANCELLED(state)`: `some st` when the enclosing
function returns `st`, `none` when control falls through. -/
def RETURN_IF_CANCELLED (state : RuntimeState) : Option Status :=
  if is_cancelled state then some (Status.ofCode TStatusCode.CANCELLED) else none

/-- Modelled from the spec: the body of `Status check_query_state()`, which the
header only declares: "aggregates, in priority order: cancellation (if true,
report Cancelled) else the stored process status (if non-ok, report it) else
ok". The cancellation test is the one of `RETURN_IF_CANCELLED`. -/
def check_query_state (s : RuntimeState) : Status :=
  match RETURN_IF_CANCELLED s with
  | some st => st
  | none => if !(query_status s).ok then query_status s else Status.OK

/-! ## Error log -/

/-- `int max_errors() const`. -/
def max_errors (s : RuntimeState) : Int := s.max_errors

/-- `const std::vector<std::string>& error_log() const`. -/
def error_log (s : RuntimeState) : List String := s._error_log

/-- `bool log_has_space()`: `_error_log.size() < _query_options.max_errors`.
The left operand is a `size_t` and the right one an `int32_t`, so the usual
arithmetic conversions turn the right operand into a `size_t` before the
comparison. -/
def log_has_space (s : RuntimeState) : Bool :=
  decide (s._error_log.length < toSizeT s.max_errors)

/-- Modelled from the spec: the body of `bool log_error(const std::string&)`,
which the header only declares: "under the error-log lock, appends if
size < max_errors; returns whether the append occurred". -/
def log_error (error : String) (s : RuntimeState) : Bool × RuntimeState :=
  if (s._error_log.length : Int) < s.max_errors then
    (true, { s with _error_log := s._error_log ++ [error] })
  else (false, s)

/-- Modelled from the spec: the body of `void log_error(const Status&)`, which
the header only declares: "a convenience that no-ops on an ok status" and
otherwise logs the status's message. -/
def log_error_status (status : Status) (s : RuntimeState) : RuntimeState :=
  if status.ok then s else (log_error status.error_msg s).2

/-- Modelled from the spec: the body of
`void get_unreported_errors(std::vector<std::string>* new_errors)`, which the
header only declares: "under lock, copies entries from the unreported cursor
to end into out, advances cursor to log size". The first component is
`*new_errors` after the call. The log holds at most `max_errors` entries, so
the `int` cursor holds its size without wrapping. -/
def get_unreported_errors (new_errors : List String) (s : RuntimeState) :
    List String × RuntimeState :=
  (new_errors ++ s._error_log.drop s._unreported_error_idx,
   { s with _unreported_error_idx := s._error_log.length })

/-- Calls `log_error` on each message in turn, from first to last; returns what
the calls returned, in order, and the final state. -/
def log_errors : List String → RuntimeState → List Bool × RuntimeState
  | [], s => ([], s)
  | m :: ms, s =>
    let r := log_error m s
    let rest := log_errors ms r.2
    (r.1 :: rest.1, rest.2)

/-- One step of an interleaving of appends and drains of the error log. -/
inductive LogOp where
  | append (error : String)
  | drain
  deriving DecidableEq, Repr

/-- Runs an interleaving; every drain is given an empty vector. Returns the
batches the drains produced, in call order, and the final state. -/
def runLog : List LogOp → RuntimeState → List (List String) × RuntimeState
  | [], s => ([], s)
  | LogOp.append m :: ops, s => runLog ops (log_error m s).2
  | LogOp.drain :: ops, s =>
    let r := get_unreported_errors [] s
    let rest := runLog ops r.2
    (r.1 :: rest.1, rest.2)

/-! ## Load counters -/

/-- `int64_t num_rows_load_success()`. -/
def num_rows_load_success (s : RuntimeState) : Int := s._num_rows_load_success

/-- `int64_t num_rows_load_filtered()`. -/
def num_rows_load_filtered (s : RuntimeState) : Int := s._num_rows_load_filtered

/-- `void update_num_rows_load_success(int64_t num_rows)`: one `fetch_add` on
the `std::atomic<int64_t>`, which wraps in two's complement. -/
def update_num_rows_load_success (num_rows : Int) (s : RuntimeState) : RuntimeState :=
  { s with _num_rows_load_success := wrapInt64 (s._num_rows_load_success + num_rows) }

/-- `void update_num_rows_load_filtered(int64_t num_rows)`: one `fetch_add`. -/
def update_num_rows_load_filtered (num_rows : Int) (s : RuntimeState) : RuntimeState :=
  { s with _num_rows_load_filtered := wrapInt64 (s._num_rows_load_filtered + num_rows) }

/-- One atomic counter update, as some load worker issues it. -/
inductive CounterOp where
  | success (num_rows : Int)
  | filtered (num_rows : Int)
  deriving DecidableEq, Repr

/-- Runs one counter update. -/
def CounterOp.apply : CounterOp → RuntimeState → RuntimeState
  | .success n, s => update_num_rows_load_success n s
  | .filtered n, s => update_num_rows_load_filtered n s

/-- The amount an update adds to the success counter. -/
def CounterOp.toSuccess : CounterOp → Int
  | .success n => n
  | .filtered _ => 0

/-- The amount an update adds to the filtered counter. -/
def CounterOp.toFiltered : CounterOp → Int
  | .success _ => 0
  | .filtered n => n

/-- Runs the updates in the order in which the atomic operations take
effect. -/
def runCounterOps (ops : List CounterOp) (s : RuntimeState) : RuntimeState :=
  ops.foldl (fun st op => op.apply st) s

/-! ## Fragment root id and hash seed -/

/-- `void set_fragment_root_id(PlanNodeId id)`:
`DCHECK(_root_node_id == -1) << "Should not set this twice."; _root_node_id = id;`.
`dcheck` says whether the build compiles `DCHECK` in, which it does unless
`NDEBUG` is defined. Where it does, a failed check ends the process with the
message, here `Except.error`, before anything is stored; where it does not,
the assignment is all that is left of the body. -/
def set_fragment_root_id (dcheck : Bool) (id : Int) (s : RuntimeState) :
    Except String RuntimeState :=
  if dcheck = true ∧ s._root_node_id ≠ -1 then Except.error "Should not set this twice."
  else Except.ok { s with _root_node_id := id }

/-- `uint32_t fragment_hash_seed() const`: `_root_node_id + 1` is computed in
`int` (two's complement) and converted to `uint32_t` on return. -/
def fragment_hash_seed (s : RuntimeState) : Nat :=
  toUInt32 (wrapInt32 (s._root_node_id + 1))

/-! ## Other setters -/

/-- `const DescriptorTbl& desc_tbl() const`, as the address referred to. -/
def desc_tbl (s : RuntimeState) : Option Nat := s._desc_tbl

/-- `void set_desc_tbl(DescriptorTbl* desc_tbl)`. -/
def set_desc_tbl (desc_tbl : Option Nat) (s : RuntimeState) : RuntimeState :=
  { s with _desc_tbl := desc_tbl }

/-- `void set_be_number(int be_number)`. -/
def set_be_number (be_number : Int) (s : RuntimeState) : RuntimeState :=
  { s with _be_number := be_number }

/-- `void set_per_fragment_instance_idx(int idx)`. -/
def set_per_fragment_instance_idx (idx : Int) (s : RuntimeState) : RuntimeState :=
  { s with _per_fragment_instance_idx := idx }

/-! ## Sequences of public operations -/

/-- The public operations of the model that can change the state, with their
arguments. The accessors change nothing and are left out. -/
inductive Op where
  | set_desc_tbl (desc_tbl : Option Nat)
  | set_fragment_root_id (id : Int)
  | log_error (error : String)
  | log_error_status (status : Status)
  | get_unreported_errors
  | set_is_cancelled (v : Bool)
  | set_be_number (be_number : Int)
  | set_process_status_str (err_msg : String)
  | set_process_status (status : Status)
  | update_num_rows_load_success (num_rows : Int)
  | update_num_rows_load_filtered (num_rows : Int)
  | set_per_fragment_instance_idx (idx : Int)
  deriving DecidableEq, Repr

/-- Runs one operation in a build with (`dcheck = true`) or without `DCHECK`;
`none` when a `DCHECK` ends the process. -/
def Op.step (dcheck : Bool) : Op → RuntimeState → Option RuntimeState
  | .set_desc_tbl p, s => some (palo.set_desc_tbl p s)
  | .set_fragment_root_id id, s => (palo.set_fragment_root_id dcheck id s).toOption
  | .log_error e, s => some (palo.log_error e s).2
  | .log_error_status st, s => some (palo.log_error_status st s)
  | .get_unreported_errors, s => some (palo.get_unreported_errors [] s).2
  | .set_is_cancelled v, s => some (palo.set_is_cancelled v s)
  | .set_be_number n, s => some (palo.set_be_number n s)
  | .set_process_status_str m, s => some (palo.set_process_status_str m s)
  | .set_process_status st, s => some (palo.set_process_status st s)
  | .update_num_rows_load_success n, s => some (palo.update_num_rows_load_success n s)
  | .update_num_rows_load_filtered n, s => some (palo.update_num_rows_load_filtered n s)
  | .set_per_fragment_instance_idx i, s => some (palo.set_per_fragment_instance_idx i s)

/-- Runs a sequence of operations, first to last; `none` as soon as one of
them ends the process. -/
def runOps (dcheck : Bool) : List Op → RuntimeState → Option RuntimeState
  | [], s => some s
  | op :: ops, s =>
    match op.step dcheck s with
    | some s1 => runOps dcheck ops s1
    | none => none

/-! ## Theorems -/

/-- Once the stored status is an error, a call of either overload changes
nothing. -/
theorem StatusWrite.apply_of_error (w : StatusWrite) (s : RuntimeState)
    (h : s._process_status.ok = false) : w.apply s = s := by
  cases w with
  | str m => simp [StatusWrite.apply, set_process_status_str, h]
  | status st => simp [StatusWrite.apply, set_process_status, h]

/-- On an ok cell, a call that asks to store an error stores it. -/
theorem StatusWrite.apply_error_of_ok (w : StatusWrite) (s : RuntimeState)
    (h : s._process_status.ok = true) (hw : w.written.ok = false) :
    (w.apply s)._process_status = w.written := by
  cases w with
  | str m => simp [StatusWrite.apply, set_process_status_str, h, StatusWrite.written]
  | status st =>
    simp only [StatusWrite.written] at hw
    simp [StatusWrite.apply, set_process_status, h, hw, StatusWrite.written]

/-- On an ok cell, a call that asks to store an ok status changes nothing. -/
theorem StatusWrite.apply_ok_of_ok (w : StatusWrite) (s : RuntimeState)
    (hw : w.written.ok = true) : w.apply s = s := by
  cases w with
  | str m => simp [StatusWrite.written, Status.ofMsg, Status.ok] at hw
  | status st =>
    simp only [StatusWrite.written] at hw
    simp [StatusWrite.apply, set_process_status, hw]

theorem runStatusWrites_of_error (ws : List StatusWrite) (s : RuntimeState)
    (h : s._process_status.ok = false) : runStatusWrites ws s = s := by
  induction ws with
  | nil => rfl
  | cons w ws ih =>
    simp only [runStatusWrites, List.foldl_cons] at ih ⊢
    rw [StatusWrite.apply_of_error w s h]
    exact ih

theorem runStatusWrites_status (ws : List StatusWrite) (s : RuntimeState)
    (h : s._process_status.ok = true) :
    (runStatusWrites ws s)._process_status = (firstError ws).getD s._process_status := by
  induction ws generalizing s with
  | nil => rfl
  | cons w ws ih =>
    have hcons : runStatusWrites (w :: ws) s = runStatusWrites ws (w.apply s) := rfl
    rw [hcons]
    cases hw : w.written.ok with
    | true =>
      rw [StatusWrite.apply_ok_of_ok w s hw, ih s h]
      simp [firstError, List.find?, hw]
    | false =>
      have hst := StatusWrite.apply_error_of_ok w s h hw
      rw [runStatusWrites_of_error ws (w.apply s) (by rw [hst]; exact hw), hst]
      simp [firstError, List.find?, hw]

/-- C1, first error wins: on a context whose process status is ok, after any
sequence of `set_process_status` calls (either overload, in any mix)
`query_status()` returns the first non-ok status the sequence asked to store,
and an ok status (the one it held) if there was none; in particular after
`set_process_status(A)` then `set_process_status(B)` with `A` an error it
returns `A`. -/
theorem first_error_wins (s : RuntimeState) (ws : List StatusWrite)
    (h : (query_status s).ok = true) :
    query_status (runStatusWrites ws s) = (firstError ws).getD (query_status s)
    ∧ (∀ e, firstError ws = some e → query_status (runStatusWrites ws s) = e ∧ e.ok = false)
    ∧ (firstError ws = none → (query_status (runStatusWrites ws s)).ok = true)
    ∧ (∀ A B : StatusWrite, A.written.ok = false →
        query_status (runStatusWrites [A, B] s) = A.written) := by
  have hrun := fun ws => runStatusWrites_status ws s h
  refine ⟨hrun ws, ?_, ?_, ?_⟩
  · intro e he
    refine ⟨by simp [query_status, hrun ws, he], ?_⟩
    have := List.find?_some he
    simpa using this
  · intro hn
    simp only [query_status, hrun ws, hn, Option.getD_none]
    exact h
  · intro A B hA
    simp [query_status, hrun [A, B], firstError, List.find?, hA]

/-- C1 at a concrete input: "disk full", then an ok status, then "timeout" on
a fresh context leaves "disk full". -/
theorem first_error_wins_witness :
    query_status (runStatusWrites
      [StatusWrite.str "disk full", StatusWrite.status Status.OK, StatusWrite.str "timeout"]
      (RuntimeState.fresh 3)) = Status.ofMsg "disk full" :=
  ((first_error_wins (RuntimeState.fresh 3)
      [StatusWrite.str "disk full", StatusWrite.status Status.OK, StatusWrite.str "timeout"]
      (by decide)).2.1 (Status.ofMsg "disk full") (by decide)).1

/-! ### Cancellation -/

/-- Every operation other than `set_is_cancelled` leaves the flag as it is. -/
theorem Op.step_is_cancelled (dcheck : Bool) (op : Op) (s s1 : RuntimeState)
    (hstep : op.step dcheck s = some s1) (hop : ∀ v, op ≠ Op.set_is_cancelled v) :
    is_cancelled s1 = is_cancelled s := by
  cases op with
  | set_is_cancelled v => exact absurd rfl (hop v)
  | set_fragment_root_id id =>
    simp only [Op.step, palo.set_fragment_root_id] at hstep
    split at hstep
    · simp [Except.toOption] at hstep
    · simp only [Except.toOption, Option.some.injEq] at hstep
      subst hstep; rfl
  | log_error e =>
    simp only [Op.step, palo.log_error, Option.some.injEq] at hstep
    subst hstep; split <;> rfl
  | log_error_status st =>
    simp only [Op.step, palo.log_error_status, palo.log_error, Option.some.injEq] at hstep
    subst hstep; split
    · rfl
    · split <;> rfl
  | set_process_status_str m =>
    simp only [Op.step, palo.set_process_status_str, Option.some.injEq] at hstep
    subst hstep; split <;> rfl
  | set_process_status st =>
    simp only [Op.step, palo.set_process_status, Option.some.injEq] at hstep
    subst hstep; split
    · rfl
    · split <;> rfl
  | _ =>
    simp only [Op.step, Option.some.injEq] at hstep
    subst hstep; rfl

/-- C2 as stated fails: after `set_is_cancelled(true)` has made
`is_cancelled()` true, `set_is_cancelled(false)` makes it false again. -/
theorem cancel_latch_counterexample :
    is_cancelled (set_is_cancelled true (RuntimeState.fresh 0)) = true
    ∧ (runOps true [Op.set_is_cancelled false]
        (set_is_cancelled true (RuntimeState.fresh 0))).map is_cancelled = some false := by
  constructor <;> rfl

/-- C2, amended: `set_is_cancelled(v)` stores `v` whatever the flag was, and
every other operation leaves the flag unchanged; so once `is_cancelled()` is
true it is true after every later sequence of operations in which
`set_is_cancelled(false)` does not occur. -/
theorem is_cancelled_stays_true (dcheck : Bool) (s : RuntimeState) (ops : List Op)
    (hc : is_cancelled s = true) (hno : Op.set_is_cancelled false ∉ ops) :
    (∀ s1, runOps dcheck ops s = some s1 → is_cancelled s1 = true)
    ∧ (∀ v s0, is_cancelled (set_is_cancelled v s0) = v)
    ∧ (∀ (op : Op) s0 s1, (∀ v, op ≠ Op.set_is_cancelled v) → op.step dcheck s0 = some s1 →
        is_cancelled s1 = is_cancelled s0) := by
  refine ⟨?_, fun _ _ => rfl,
    fun op s0 s1 hop hstep => Op.step_is_cancelled dcheck op s0 s1 hstep hop⟩
  induction ops generalizing s with
  | nil =>
    intro s1 h1
    simp only [runOps, Option.some.injEq] at h1
    subst h1; exact hc
  | cons op ops ih =>
    intro s1 h1
    simp only [runOps] at h1
    cases hstep : op.step dcheck s with
    | none => simp [hstep] at h1
    | some s2 =>
      simp only [hstep] at h1
      have hno2 : Op.set_is_cancelled false ∉ ops := fun hm => hno (List.mem_cons_of_mem _ hm)
      refine ih s2 ?_ hno2 s1 h1
      by_cases hv : ∃ v, op = Op.set_is_cancelled v
      · obtain ⟨v, rfl⟩ := hv
        cases v with
        | true =>
          simp only [Op.step, Option.some.injEq] at hstep
          subst hstep; rfl
        | false => exact absurd (List.mem_cons_self _ _) hno
      · rw [Op.step_is_cancelled dcheck op s s2 hstep (fun v hv2 => hv ⟨v, hv2⟩)]
        exact hc

/-- C2, amended, at a concrete input: a cancelled context stays cancelled
through appends, status writes, counter updates and a repeated
`set_is_cancelled(true)`. -/
theorem is_cancelled_stays_true_witness :
    ∃ s1, runOps true [Op.log_error "bad row", Op.set_is_cancelled true,
                  Op.set_process_status_str "disk full", Op.set_fragment_root_id 4,
                  Op.update_num_rows_load_filtered 100, Op.get_unreported_errors]
            (set_is_cancelled true (RuntimeState.fresh 3)) = some s1
          ∧ is_cancelled s1 = true :=
  ⟨_, rfl, (is_cancelled_stays_true true (set_is_cancelled true (RuntimeState.fresh 3))
      [Op.log_error "bad row", Op.set_is_cancelled true,
       Op.set_process_status_str "disk full", Op.set_fragment_root_id 4,
       Op.update_num_rows_load_filtered 100, Op.get_unreported_errors]
      rfl (by decide)).1 _ rfl⟩

/-! ### Query state -/

/-- C3, `check_query_state()` aggregates in priority order: a cancelled
context reports Cancelled, even over a stored error; otherwise a stored non-ok
process status is reported as it is; otherwise the result is ok. In particular
`set_is_cancelled(true)` on a context whose process status is ok makes it
report Cancelled, which is not ok. -/
theorem check_query_state_priority (s : RuntimeState) :
    (is_cancelled s = true → check_query_state s = Status.ofCode TStatusCode.CANCELLED)
    ∧ (is_cancelled s = false → (query_status s).ok = false →
        check_query_state s = query_status s)
    ∧ (is_cancelled s = false → (query_status s).ok = true →
        check_query_state s = Status.OK ∧ (check_query_state s).ok = true)
    ∧ check_query_state (set_is_cancelled true s) = Status.ofCode TStatusCode.CANCELLED
    ∧ (Status.ofCode TStatusCode.CANCELLED).ok = false
    ∧ (RETURN_IF_CANCELLED s).isSome = is_cancelled s := by
  refine ⟨?_, ?_, ?_, ?_, rfl, ?_⟩
  · intro hc
    simp [check_query_state, RETURN_IF_CANCELLED, hc]
  · intro hc hs
    simp [check_query_state, RETURN_IF_CANCELLED, hc, hs]
  · intro hc hs
    have h1 : check_query_state s = Status.OK := by
      simp [check_query_state, RETURN_IF_CANCELLED, hc, hs]
    exact ⟨h1, by rw [h1]; rfl⟩
  · simp [check_query_state, RETURN_IF_CANCELLED, is_cancelled, set_is_cancelled]
  · cases hc : is_cancelled s <;> simp [RETURN_IF_CANCELLED, hc]

/-! ### Error log -/

/-- What a run of `log_error` calls does from any state: it appends the
messages for which there is still room, and reports `true` for exactly
those. -/
theorem log_errors_spec (msgs : List String) (s : RuntimeState) :
    (log_errors msgs s).2 =
      { s with _error_log :=
          s._error_log ++ msgs.take (s.max_errors.toNat - s._error_log.length) }
    ∧ (log_errors msgs s).1 =
      List.replicate (min msgs.length (s.max_errors.toNat - s._error_log.length)) true
        ++ List.replicate (msgs.length - (s.max_errors.toNat - s._error_log.length)) false := by
  induction msgs generalizing s with
  | nil => simp [log_errors]
  | cons m ms ih =>
    obtain ⟨ih2, ih1⟩ := ih (log_error m s).2
    simp only [log_errors, ih2, ih1]
    by_cases hlt : (s._error_log.length : Int) < s.max_errors
    · have hd : s.max_errors.toNat - s._error_log.length
          = (s.max_errors.toNat - (s._error_log.length + 1)) + 1 := by omega
      have h1 : min (ms.length + 1) (s.max_errors.toNat - s._error_log.length)
          = min ms.length (s.max_errors.toNat - (s._error_log.length + 1)) + 1 := by omega
      have h2 : ms.length + 1 - (s.max_errors.toNat - s._error_log.length)
          = ms.length - (s.max_errors.toNat - (s._error_log.length + 1)) := by omega
      simp only [log_error, hlt, if_true, List.length_append, List.length_singleton,
        List.length_cons, h1, h2, List.replicate_succ, List.cons_append]
      refine ⟨?_, rfl⟩
      rw [hd, List.take_succ_cons]
      simp
    · have hd : s.max_errors.toNat - s._error_log.length = 0 := by omega
      simp [log_error, hlt, hd, List.replicate_succ]

/-- C4, the error log is bounded by `max_errors`: with `max_errors = m ≥ 0`
and an empty log, `n` calls of `log_error` keep the first `min(n, m)` messages;
each call returns true exactly when it appended its message (the first
`min(n, m)` calls do, the others leave the state as it is), the size is at most
`m` after any number of the calls, the final size is `min(n, m)`, and
afterwards `log_has_space()` holds exactly when `n < m`. -/
theorem log_errors_bounded (s : RuntimeState) (msgs : List String)
    (hm : 0 ≤ max_errors s) (h32 : isInt32 (max_errors s)) (hlog : error_log s = []) :
    (∀ (e : String) (s0 : RuntimeState),
        ((log_error e s0).1 = true → error_log (log_error e s0).2 = error_log s0 ++ [e])
        ∧ ((log_error e s0).1 = false → (log_error e s0).2 = s0))
    ∧ (∀ k, ((error_log (log_errors (msgs.take k) s).2).length : Int) ≤ max_errors s)
    ∧ error_log (log_errors msgs s).2 = msgs.take (max_errors s).toNat
    ∧ (error_log (log_errors msgs s).2).length = min msgs.length (max_errors s).toNat
    ∧ (log_errors msgs s).1 =
        List.replicate (min msgs.length (max_errors s).toNat) true
          ++ List.replicate (msgs.length - (max_errors s).toNat) false
    ∧ log_has_space (log_errors msgs s).2 = decide ((msgs.length : Int) < max_errors s) := by
  simp only [max_errors, error_log] at hm hlog h32 ⊢
  have hfin : ∀ l : List String,
      (log_errors l s).2._error_log = l.take s.max_errors.toNat := by
    intro l
    rw [(log_errors_spec l s).1]
    simp [hlog]
  have hmax : (log_errors msgs s).2.max_errors = s.max_errors := by
    rw [(log_errors_spec msgs s).1]
  refine ⟨?_, ?_, hfin msgs, ?_, ?_, ?_⟩
  · intro e s0
    by_cases hlt : (s0._error_log.length : Int) < s0.max_errors <;> simp [log_error, hlt]
  · intro k
    rw [hfin, List.length_take]
    omega
  · rw [hfin, List.length_take]
    omega
  · have := (log_errors_spec msgs s).2
    simpa [hlog] using this
  · obtain ⟨hlo, hhi⟩ := h32
    have hsz : toSizeT s.max_errors = s.max_errors.toNat := by
      unfold toSizeT
      rw [Int.emod_eq_of_lt hm (by omega)]
    simp only [log_has_space, hfin, hmax, hsz, List.length_take]
    congr 1
    apply propext
    omega

/-- C4 at a concrete input: `max_errors = 3` and five logged errors give a log
of size 3, no space left, and `true` from the first three calls only. -/
theorem log_errors_bounded_witness :
    (error_log (log_errors ["e1", "e2", "e3", "e4", "e5"] (RuntimeState.fresh 3)).2).length = 3
    ∧ log_has_space (log_errors ["e1", "e2", "e3", "e4", "e5"] (RuntimeState.fresh 3)).2 = false
    ∧ (log_errors ["e1", "e2", "e3", "e4", "e5"] (RuntimeState.fresh 3)).1
        = [true, true, true, false, false] :=
  have h := log_errors_bounded (RuntimeState.fresh 3) ["e1", "e2", "e3", "e4", "e5"]
    (by decide) (by decide) rfl
  ⟨h.2.2.2.1, h.2.2.2.2.2, h.2.2.2.2.1⟩

/-- Running an interleaving in two parts. -/
theorem runLog_append (p q : List LogOp) (s : RuntimeState) :
    runLog (p ++ q) s =
      ((runLog p s).1 ++ (runLog q (runLog p s).2).1, (runLog q (runLog p s).2).2) := by
  induction p generalizing s with
  | nil => simp [runLog]
  | cons op p ih =>
    cases op with
    | append m => simp [runLog, ih]
    | drain => simp [runLog, ih]

/-- The effect of one `log_error` on the log and the cursor. -/
theorem log_error_log (e : String) (s : RuntimeState) :
    (∃ t, (log_error e s).2._error_log = s._error_log ++ t)
    ∧ (log_error e s).2._unreported_error_idx = s._unreported_error_idx := by
  unfold log_error
  split
  · exact ⟨⟨[e], rfl⟩, rfl⟩
  · exact ⟨⟨[], by simp⟩, rfl⟩

/-- Without a drain no batch is produced and the cursor stays where it is. -/
theorem runLog_no_drain (ops : List LogOp) (s : RuntimeState) (h : LogOp.drain ∉ ops) :
    (runLog ops s).1 = [] ∧ (runLog ops s).2._unreported_error_idx = s._unreported_error_idx := by
  induction ops generalizing s with
  | nil => simp [runLog]
  | cons op ops ih =>
    cases op with
    | append m =>
      have h2 : LogOp.drain ∉ ops := fun hm => h (List.mem_cons_of_mem _ hm)
      obtain ⟨i1, i2⟩ := ih (log_error m s).2 h2
      refine ⟨by simp [runLog, i1], ?_⟩
      simp only [runLog, i2]
      exact (log_error_log m s).2
    | drain => exact absurd (List.mem_cons_self _ _) h

/-- The invariants of an interleaving of appends and drains. -/
theorem runLog_spec (ops : List LogOp) (s : RuntimeState)
    (hinv : s._unreported_error_idx ≤ s._error_log.length) :
    (∃ t, (runLog ops s).2._error_log = s._error_log ++ t)
    ∧ s._unreported_error_idx ≤ (runLog ops s).2._unreported_error_idx
    ∧ (runLog ops s).2._unreported_error_idx ≤ (runLog ops s).2._error_log.length
    ∧ s._error_log.take s._unreported_error_idx ++ (runLog ops s).1.flatten
        = (runLog ops s).2._error_log.take (runLog ops s).2._unreported_error_idx := by
  induction ops generalizing s with
  | nil => simp [runLog, hinv]
  | cons op ops ih =>
    cases op with
    | append m =>
      obtain ⟨⟨t1, ht1⟩, hidx⟩ := log_error_log m s
      have hinv1 : (log_error m s).2._unreported_error_idx
          ≤ (log_error m s).2._error_log.length := by
        rw [hidx, ht1, List.length_append]; omega
      obtain ⟨⟨t, ht⟩, hb, hc, hd⟩ := ih (log_error m s).2 hinv1
      simp only [runLog]
      refine ⟨⟨t1 ++ t, by rw [ht, ht1, List.append_assoc]⟩, by omega, hc, ?_⟩
      rw [← hd, hidx, ht1, List.take_append_of_le_length hinv]
    | drain =>
      have hinv1 : (get_unreported_errors [] s).2._unreported_error_idx
          ≤ (get_unreported_errors [] s).2._error_log.length := le_refl _
      obtain ⟨⟨t, ht⟩, hb, hc, hd⟩ := ih (get_unreported_errors [] s).2 hinv1
      simp only [runLog]
      refine ⟨⟨t, ht⟩, ?_, hc, ?_⟩
      · exact le_trans hinv hb
      · rw [← hd]
        simp only [get_unreported_errors, List.nil_append, List.flatten, List.take_length]
        rw [← List.append_assoc, List.take_append_drop]

/-- C5, the drains partition the log: along any interleaving of `log_error`
appends and `get_unreported_errors` drains, what had been reported before
followed by the batches of the drains, in call order, is the log up to the
final cursor (so from a cursor at 0 the batches concatenate to that prefix of
the log: nothing twice, nothing skipped); the log only grows at its end; the
final cursor is the log size at the time of the last drain; and at every point
of the interleaving the cursor has not decreased and is at most the log
size. -/
theorem unreported_errors_partition (s : RuntimeState) (ops : List LogOp)
    (hinv : s._unreported_error_idx ≤ (error_log s).length) :
    (error_log s).take s._unreported_error_idx ++ (runLog ops s).1.flatten
        = (error_log (runLog ops s).2).take (runLog ops s).2._unreported_error_idx
    ∧ (s._unreported_error_idx = 0 → (runLog ops s).1.flatten
        = (error_log (runLog ops s).2).take (runLog ops s).2._unreported_error_idx)
    ∧ (∃ t, error_log (runLog ops s).2 = error_log s ++ t)
    ∧ (∀ pre post, ops = pre ++ LogOp.drain :: post → LogOp.drain ∉ post →
        (runLog ops s).2._unreported_error_idx = (error_log (runLog pre s).2).length)
    ∧ (∀ p q, ops = p ++ q →
        s._unreported_error_idx ≤ (runLog p s).2._unreported_error_idx
        ∧ (runLog p s).2._unreported_error_idx ≤ (error_log (runLog p s).2).length
        ∧ (runLog p s).2._unreported_error_idx ≤ (runLog ops s).2._unreported_error_idx) := by
  simp only [error_log] at hinv ⊢
  obtain ⟨ha, _, _, hd⟩ := runLog_spec ops s hinv
  refine ⟨hd, ?_, ha, ?_, ?_⟩
  · intro h0
    rw [← hd, h0]
    simp
  · intro pre post hops hpost
    subst hops
    rw [runLog_append]
    simp only [runLog]
    rw [(runLog_no_drain post _ hpost).2]
    rfl
  · intro p q hops
    subst hops
    obtain ⟨_, hb, hc, _⟩ := runLog_spec p s hinv
    refine ⟨hb, hc, ?_⟩
    rw [runLog_append]
    exact (runLog_spec q (runLog p s).2 hc).2.1

/-- C5 at a concrete input: with room for three entries, one append, a drain,
three appends and two drains return "a", then "b" and "c", then nothing. -/
theorem unreported_errors_partition_witness :
    (runLog [LogOp.append "a", LogOp.drain, LogOp.append "b", LogOp.append "c",
             LogOp.append "d", LogOp.drain, LogOp.drain] (RuntimeState.fresh 3)).1
        = [["a"], ["b", "c"], []]
    ∧ (runLog [LogOp.append "a", LogOp.drain, LogOp.append "b", LogOp.append "c",
               LogOp.append "d", LogOp.drain, LogOp.drain] (RuntimeState.fresh 3)).1.flatten
        = ["a", "b", "c"] :=
  ⟨rfl, (unreported_errors_partition (RuntimeState.fresh 3)
      [LogOp.append "a", LogOp.drain, LogOp.append "b", LogOp.append "c",
       LogOp.append "d", LogOp.drain, LogOp.drain] (Nat.zero_le _)).2.1 rfl⟩

/-- C6 as stated fails: with `max_errors = -1` and an empty log,
`log_has_space()` is true although `0 < -1` is false. -/
theorem log_has_space_counterexample :
    log_has_space (RuntimeState.fresh (-1)) = true
    ∧ ¬ (((error_log (RuntimeState.fresh (-1))).length : Int)
          < max_errors (RuntimeState.fresh (-1))) := by
  constructor <;> decide

/-- C6, amended: for every error log of length `s` and every non-negative
value of the 32-bit option `max_errors`, zero included, `log_has_space()` is
true if and only if `s < max_errors` as mathematical integers. -/
theorem log_has_space_iff (s : RuntimeState) (h32 : isInt32 (max_errors s))
    (hm : 0 ≤ max_errors s) :
    log_has_space s = true ↔ ((error_log s).length : Int) < max_errors s := by
  simp only [max_errors, error_log, isInt32] at *
  have hsz : toSizeT s.max_errors = s.max_errors.toNat := by
    unfold toSizeT
    rw [Int.emod_eq_of_lt hm (by omega)]
  simp only [log_has_space, hsz, decide_eq_true_eq]
  omega

/-- C6, amended, at concrete inputs: with `max_errors = 0` an empty log has no
space; with `max_errors = 3` a log of two entries has. -/
theorem log_has_space_iff_witness :
    log_has_space (RuntimeState.fresh 0) = false
    ∧ (log_has_space (log_errors ["e1", "e2"] (RuntimeState.fresh 3)).2 = true
        ↔ ((error_log (log_errors ["e1", "e2"] (RuntimeState.fresh 3)).2).length : Int)
            < max_errors (log_errors ["e1", "e2"] (RuntimeState.fresh 3)).2) :=
  ⟨by decide,
   log_has_space_iff (log_errors ["e1", "e2"] (RuntimeState.fresh 3)).2
     (by decide) (by decide)⟩

/-! ### Load counters -/

theorem wrapInt64_add (a b : Int) : wrapInt64 (wrapInt64 a + b) = wrapInt64 (a + b) := by
  unfold wrapInt64; omega

theorem wrapInt64_of_isInt64 (a : Int) (h : isInt64 a) : wrapInt64 a = a := by
  unfold wrapInt64; unfold isInt64 at h; omega

theorem isInt64_wrapInt64 (a : Int) : isInt64 (wrapInt64 a) := by
  unfold wrapInt64 isInt64; omega

/-- The counters after a sequence of atomic updates, in the order in which
they take effect. -/
theorem runCounterOps_spec (ops : List CounterOp) (s : RuntimeState)
    (hf : isInt64 s._num_rows_load_filtered) (hs : isInt64 s._num_rows_load_success) :
    (runCounterOps ops s)._num_rows_load_filtered
        = wrapInt64 (s._num_rows_load_filtered + (ops.map CounterOp.toFiltered).sum)
    ∧ (runCounterOps ops s)._num_rows_load_success
        = wrapInt64 (s._num_rows_load_success + (ops.map CounterOp.toSuccess).sum) := by
  induction ops generalizing s with
  | nil =>
    simp [runCounterOps, wrapInt64_of_isInt64 _ hf, wrapInt64_of_isInt64 _ hs]
  | cons op ops ih =>
    have hcons : runCounterOps (op :: ops) s = runCounterOps ops (op.apply s) := rfl
    rw [hcons]
    cases op with
    | success n =>
      obtain ⟨i1, i2⟩ := ih (update_num_rows_load_success n s) hf (isInt64_wrapInt64 _)
      simp only [CounterOp.apply]
      rw [i1, i2]
      simp only [List.map_cons, List.sum_cons, CounterOp.toFiltered, CounterOp.toSuccess,
        update_num_rows_load_success, wrapInt64_add, zero_add, add_assoc, and_self]
    | filtered n =>
      obtain ⟨i1, i2⟩ := ih (update_num_rows_load_filtered n s) (isInt64_wrapInt64 _) hs
      simp only [CounterOp.apply]
      rw [i1, i2]
      simp only [List.map_cons, List.sum_cons, CounterOp.toFiltered, CounterOp.toSuccess,
        update_num_rows_load_filtered, wrapInt64_add, zero_add, add_assoc, and_self]

theorem sum_toFiltered_filtered (ns : List Int) :
    ((ns.map CounterOp.filtered).map CounterOp.toFiltered).sum = ns.sum
    ∧ ((ns.map CounterOp.filtered).map CounterOp.toSuccess).sum = 0 := by
  induction ns with
  | nil => simp
  | cons n ns ih =>
    simp only [List.map_cons, List.sum_cons, ih.1, ih.2, CounterOp.toFiltered,
      CounterOp.toSuccess, add_zero, and_self]

theorem sum_toSuccess_success (ns : List Int) :
    ((ns.map CounterOp.success).map CounterOp.toSuccess).sum = ns.sum
    ∧ ((ns.map CounterOp.success).map CounterOp.toFiltered).sum = 0 := by
  induction ns with
  | nil => simp
  | cons n ns ih =>
    simp only [List.map_cons, List.sum_cons, ih.1, ih.2, CounterOp.toFiltered,
      CounterOp.toSuccess, add_zero, and_self]

/-- C7, load counters lose no update: whatever the order `order` in which the
atomic `fetch_add` calls of a collection `ops` of updates take effect, each
counter ends at its starting value plus the sum of the increments addressed to
it, in 64-bit two's complement (so at the exact sum whenever that fits). In
particular increments `ns` applied through `update_num_rows_load_filtered`
give `c + n_1 + ... + n_k` there and leave the success counter as it was, and
the same with the two counters exchanged. -/
theorem load_counters_no_lost_updates (s : RuntimeState) (ops order : List CounterOp)
    (hf : isInt64 (num_rows_load_filtered s)) (hs : isInt64 (num_rows_load_success s))
    (hperm : order.Perm ops) :
    num_rows_load_filtered (runCounterOps order s)
        = wrapInt64 (num_rows_load_filtered s + (ops.map CounterOp.toFiltered).sum)
    ∧ num_rows_load_success (runCounterOps order s)
        = wrapInt64 (num_rows_load_success s + (ops.map CounterOp.toSuccess).sum)
    ∧ (isInt64 (num_rows_load_filtered s + (ops.map CounterOp.toFiltered).sum) →
        num_rows_load_filtered (runCounterOps order s)
          = num_rows_load_filtered s + (ops.map CounterOp.toFiltered).sum)
    ∧ (isInt64 (num_rows_load_success s + (ops.map CounterOp.toSuccess).sum) →
        num_rows_load_success (runCounterOps order s)
          = num_rows_load_success s + (ops.map CounterOp.toSuccess).sum)
    ∧ (∀ ns : List Int, ops = ns.map CounterOp.filtered →
        num_rows_load_filtered (runCounterOps order s)
            = wrapInt64 (num_rows_load_filtered s + ns.sum)
        ∧ num_rows_load_success (runCounterOps order s) = num_rows_load_success s)
    ∧ (∀ ns : List Int, ops = ns.map CounterOp.success →
        num_rows_load_success (runCounterOps order s)
            = wrapInt64 (num_rows_load_success s + ns.sum)
        ∧ num_rows_load_filtered (runCounterOps order s) = num_rows_load_filtered s) := by
  simp only [num_rows_load_filtered, num_rows_load_success] at *
  obtain ⟨h1, h2⟩ := runCounterOps_spec order s hf hs
  rw [(hperm.map CounterOp.toFiltered).sum_eq] at h1
  rw [(hperm.map CounterOp.toSuccess).sum_eq] at h2
  refine ⟨h1, h2, ?_, ?_, ?_, ?_⟩
  · intro hr
    rw [h1, wrapInt64_of_isInt64 _ hr]
  · intro hr
    rw [h2, wrapInt64_of_isInt64 _ hr]
  · intro ns hns
    subst hns
    rw [h1, h2, (sum_toFiltered_filtered ns).1, (sum_toFiltered_filtered ns).2, add_zero,
      wrapInt64_of_isInt64 _ hs]
    exact ⟨rfl, rfl⟩
  · intro ns hns
    subst hns
    rw [h1, h2, (sum_toSuccess_success ns).1, (sum_toSuccess_success ns).2, add_zero,
      wrapInt64_of_isInt64 _ hf]
    exact ⟨rfl, rfl⟩

/-- C7 at a concrete input: eight workers each adding 100 to the filtered-row
counter of a fresh context leave 800 there and 0 in the success counter. -/
theorem load_counters_no_lost_updates_witness :
    num_rows_load_filtered
        (runCounterOps (List.replicate 8 (CounterOp.filtered 100)) (RuntimeState.fresh 0)) = 800
    ∧ num_rows_load_success
        (runCounterOps (List.replicate 8 (CounterOp.filtered 100)) (RuntimeState.fresh 0)) = 0 :=
  (load_counters_no_lost_updates (RuntimeState.fresh 0)
    (List.replicate 8 (CounterOp.filtered 100)) (List.replicate 8 (CounterOp.filtered 100))
    (by decide) (by decide) (List.Perm.refl _)).2.2.2.2.1 (List.replicate 8 100) rfl

/-! ### Fragment root id and hash seed -/

/-- C8 as stated fails: on a context whose root plan-node id is still unset
(-1) the seed is 0. -/
theorem fragment_hash_seed_counterexample :
    (RuntimeState.fresh 0)._root_node_id = -1
    ∧ fragment_hash_seed (RuntimeState.fresh 0) = 0 := by
  constructor <;> decide

/-- C8, amended: the seed is an unsigned 32-bit value that is non-zero exactly
when the root plan-node id is not -1; so it is non-zero once
`set_fragment_root_id` has stored an id other than -1, and it is 0 while the
id is unset. -/
theorem fragment_hash_seed_ne_zero (s : RuntimeState) (h32 : isInt32 s._root_node_id) :
    (fragment_hash_seed s ≠ 0 ↔ s._root_node_id ≠ -1)
    ∧ fragment_hash_seed s < 2 ^ 32
    ∧ (∀ (dcheck : Bool) (id : Int) (s1 : RuntimeState), isInt32 id → id ≠ -1 →
        set_fragment_root_id dcheck id s = Except.ok s1 → fragment_hash_seed s1 ≠ 0) := by
  unfold isInt32 at h32
  refine ⟨?_, ?_, ?_⟩
  · unfold fragment_hash_seed toUInt32 wrapInt32; omega
  · unfold fragment_hash_seed toUInt32 wrapInt32; omega
  · intro dcheck id s1 hid hne hset
    unfold set_fragment_root_id at hset
    split at hset
    · simp at hset
    · simp only [Except.ok.injEq] at hset
      subst hset
      unfold isInt32 at hid
      simp only [fragment_hash_seed, toUInt32, wrapInt32]
      omega

/-- C8, amended, at a concrete input: root id 0, the first plan node, gives
seed 1. -/
theorem fragment_hash_seed_ne_zero_witness :
    fragment_hash_seed { RuntimeState.fresh 0 with _root_node_id := 0 } ≠ 0 :=
  (fragment_hash_seed_ne_zero { RuntimeState.fresh 0 with _root_node_id := 0 }
    (by decide)).1.2 (by decide)

/-- C9, the seed separates fragments: the seed is the root plan-node id plus
one converted to unsigned 32 bits, and two contexts have equal seeds if and
only if their root plan-node ids are equal. -/
theorem fragment_hash_seed_injective (s1 s2 : RuntimeState)
    (h1 : isInt32 s1._root_node_id) (h2 : isInt32 s2._root_node_id) :
    fragment_hash_seed s1 = toUInt32 (s1._root_node_id + 1)
    ∧ (fragment_hash_seed s1 : Int) = (s1._root_node_id + 1) % 2 ^ 32
    ∧ (fragment_hash_seed s1 = fragment_hash_seed s2 ↔ s1._root_node_id = s2._root_node_id) := by
  unfold isInt32 at h1 h2
  refine ⟨?_, ?_, ?_⟩
  · unfold fragment_hash_seed toUInt32 wrapInt32; omega
  · unfold fragment_hash_seed toUInt32 wrapInt32; omega
  · unfold fragment_hash_seed toUInt32 wrapInt32; omega

/-- C9 at a concrete input: the largest id and the unset id -1 get the seeds
2^31 and 0, which differ. -/
theorem fragment_hash_seed_injective_witness :
    fragment_hash_seed { RuntimeState.fresh 0 with _root_node_id := 2147483647 }
        = toUInt32 (2147483647 + 1)
    ∧ (fragment_hash_seed { RuntimeState.fresh 0 with _root_node_id := 2147483647 }
          = fragment_hash_seed (RuntimeState.fresh 0)
        ↔ (2147483647 : Int) = -1) :=
  have h := fragment_hash_seed_injective
    { RuntimeState.fresh 0 with _root_node_id := 2147483647 } (RuntimeState.fresh 0)
    (by decide) (by decide)
  ⟨h.1, h.2.2⟩

/-- Every operation other than `set_desc_tbl` leaves the descriptor-table
pointer as it is. -/
theorem Op.step_desc_tbl (dcheck : Bool) (op : Op) (s s1 : RuntimeState)
    (hstep : op.step dcheck s = some s1) (hop : ∀ d, op ≠ Op.set_desc_tbl d) :
    desc_tbl s1 = desc_tbl s := by
  cases op with
  | set_desc_tbl d => exact absurd rfl (hop d)
  | set_fragment_root_id id =>
    simp only [Op.step, palo.set_fragment_root_id] at hstep
    split at hstep
    · simp [Except.toOption] at hstep
    · simp only [Except.toOption, Option.some.injEq] at hstep
      subst hstep; rfl
  | log_error e =>
    simp only [Op.step, palo.log_error, Option.some.injEq] at hstep
    subst hstep; split <;> rfl
  | log_error_status st =>
    simp only [Op.step, palo.log_error_status, palo.log_error, Option.some.injEq] at hstep
    subst hstep; split
    · rfl
    · split <;> rfl
  | set_process_status_str m =>
    simp only [Op.step, palo.set_process_status_str, Option.some.injEq] at hstep
    subst hstep; split <;> rfl
  | set_process_status st =>
    simp only [Op.step, palo.set_process_status, Option.some.injEq] at hstep
    subst hstep; split
    · rfl
    · split <;> rfl
  | _ =>
    simp only [Op.step, Option.some.injEq] at hstep
    subst hstep; rfl

/-- Across a sequence of operations without `set_desc_tbl` the
descriptor-table pointer does not change. -/
theorem runOps_desc_tbl (dcheck : Bool) (ops : List Op) (s s1 : RuntimeState)
    (hno : ∀ d, Op.set_desc_tbl d ∉ ops) (hrun : runOps dcheck ops s = some s1) :
    desc_tbl s1 = desc_tbl s := by
  induction ops generalizing s with
  | nil =>
    simp only [runOps, Option.some.injEq] at hrun
    subst hrun; rfl
  | cons op ops ih =>
    simp only [runOps] at hrun
    cases hstep : op.step dcheck s with
    | none => simp [hstep] at hrun
    | some s2 =>
      simp only [hstep] at hrun
      have hno2 : ∀ d, Op.set_desc_tbl d ∉ ops :=
        fun d hm => hno d (List.mem_cons_of_mem _ hm)
      rw [ih s2 hno2 hrun]
      exact Op.step_desc_tbl dcheck op s s2 hstep
        (fun d hd => hno d (by rw [hd]; exact List.mem_cons_self _ _))

/-- C11 as stated fails: after `set_desc_tbl(d1)` a later `set_desc_tbl(d2)`
with another table replaces the first, and `desc_tbl()` refers to `d2`, not to
`d1`. -/
theorem set_desc_tbl_counterexample :
    desc_tbl (set_desc_tbl (some 1) (RuntimeState.fresh 0)) = some 1
    ∧ desc_tbl (set_desc_tbl (some 2) (set_desc_tbl (some 1) (RuntimeState.fresh 0))) = some 2
    ∧ desc_tbl (set_desc_tbl (some 2) (set_desc_tbl (some 1) (RuntimeState.fresh 0)))
        ≠ some 1 := by
  refine ⟨rfl, rfl, ?_⟩
  decide

/-- C11, amended: `set_desc_tbl(d)` stores `d` whatever table was there. After
`set_desc_tbl(d1)`, `desc_tbl()` refers to `d1` through every later sequence of
operations in which `set_desc_tbl` does not occur; a later `set_desc_tbl(d2)`
replaces the table, and `desc_tbl()` then refers to `d2`. -/
theorem desc_tbl_last_set (dcheck : Bool) (s s1 : RuntimeState) (d1 d2 : Option Nat)
    (ops : List Op) (hno : ∀ d, Op.set_desc_tbl d ∉ ops)
    (hrun : runOps dcheck ops (set_desc_tbl d1 s) = some s1) :
    desc_tbl (set_desc_tbl d1 s) = d1
    ∧ desc_tbl s1 = d1
    ∧ desc_tbl (set_desc_tbl d2 s1) = d2
    ∧ (Op.set_desc_tbl d2).step dcheck s1 = some (set_desc_tbl d2 s1) := by
  refine ⟨rfl, ?_, rfl, rfl⟩
  rw [runOps_desc_tbl dcheck ops (set_desc_tbl d1 s) s1 hno hrun]
  rfl

/-- C11, amended, at a concrete input: the table set first stays through an
append, a status write and a cancellation, and is replaced by the next
`set_desc_tbl`. -/
theorem desc_tbl_last_set_witness :
    ∃ s1, runOps true [Op.log_error "bad row", Op.set_process_status_str "disk full",
                  Op.set_is_cancelled true]
            (set_desc_tbl (some 1) (RuntimeState.fresh 3)) = some s1
          ∧ desc_tbl s1 = some 1
          ∧ desc_tbl (set_desc_tbl (some 2) s1) = some 2 :=
  have h := desc_tbl_last_set true (RuntimeState.fresh 3) _ (some 1) (some 2)
    [Op.log_error "bad row", Op.set_process_status_str "disk full", Op.set_is_cancelled true]
    (fun d hd => by simp at hd) rfl
  ⟨_, rfl, h.2.1, h.2.2.1⟩

end palo
